import Mathlib

/-!
Verification of the BALBM D2Q9 lattice Boltzmann core (`lattice.hh`,
`equilibrium.hh`) against its specification.

The C++ code is shallowly embedded: `double` values are modelled as exact
rationals, unsigned 32-bit arithmetic is modelled on `Nat` with explicit
reductions modulo 2^32 where the machine arithmetic wraps, and the two
distribution buffers are modelled as lists of rationals.  Functions whose
defining translation units are not part of the visible sources
(`init_f_`, the static tables `lat_vecs_` / `w_`, the equilibrium functor
bodies) are modelled from the specification and say so in their doc
comments.
-/

namespace balbm.d2q9

/-- 2^32, the modulus of the C `unsigned` arithmetic used throughout
`lattice.hh`. -/
def UINT_MOD : Nat := 4294967296

/-- 2^31, the magnitude of `INT_MIN` for the 32-bit `int` used by
`in_bounds`. -/
def INT_HALF : Nat := 2147483648

/-- C conversion from `unsigned` to `int` (two's-complement wrap into
the interval [-2^31, 2^31), as performed when `check_bounds` passes its
`unsigned` arguments to `in_bounds(int, int)`). -/
def toInt32 (n : Nat) : Int :=
  if n % UINT_MOD < INT_HALF then ((n % UINT_MOD : Nat) : Int)
  else ((n % UINT_MOD : Nat) : Int) - (UINT_MOD : Int)

/-- C conversion from `int` to `unsigned` (reduction mod 2^32, as
performed when `in_bounds` compares its `int` argument against the
`unsigned` members `ni_` / `nj_`). -/
def toUInt32 (x : Int) : Nat := (x % (UINT_MOD : Int)).toNat

/-- Unsigned subtraction of 1: `n - 1` on a C `unsigned`, which wraps to
`2^32 - 1` when `n = 0`.  Used by the whole-grid overloads, which compute
`ni_ - 1` and `nj_ - 1` (lattice.hh:135, 152-155). -/
def usub1 (n : Nat) : Nat := (n % UINT_MOD + UINT_MOD - 1) % UINT_MOD

/-- `Lattice::num_k()` (lattice.hh:90): nine populations per cell. -/
def num_k : Nat := 9

/-- `Lattice::cssq()` (lattice.hh:87): with `dx = dt = 1`,
`cs = c/sqrt(3)` and `cssq = cs*cs = 1/3` (modelled exactly). -/
def cssq : ℚ := 1 / 3

/-- Modelled from the spec: the static per-direction weights `w_`
(declared at lattice.hh:178; the defining translation unit is not under
the visible sources).  Standard D2Q9 weights: 4/9 for the rest direction,
1/9 for the four axis directions 1-4, 1/36 for the four diagonal
directions 5-8, matching the direction diagram in lattice.hh and the
spec's zero-velocity reduction `weight_k * rho`. -/
def w_ : Fin 9 → ℚ
  | 0 => 4 / 9
  | 1 => 1 / 9
  | 2 => 1 / 9
  | 3 => 1 / 9
  | 4 => 1 / 9
  | 5 => 1 / 36
  | 6 => 1 / 36
  | 7 => 1 / 36
  | 8 => 1 / 36

/-- Modelled from the spec: the static 9 × 2 direction-vector table
`lat_vecs_` (declared at lattice.hh:177; the defining translation unit is
not under the visible sources).  Directions follow the diagram in
lattice.hh: 0 rest, 1 east, 2 north, 3 west, 4 south, 5 NE, 6 NW, 7 SW,
8 SE. -/
def lat_vecs : Fin 9 → ℚ × ℚ
  | 0 => (0, 0)
  | 1 => (1, 0)
  | 2 => (0, 1)
  | 3 => (-1, 0)
  | 4 => (0, -1)
  | 5 => (1, 1)
  | 6 => (-1, 1)
  | 7 => (-1, -1)
  | 8 => (1, -1)

/-- The 9 × 2 table `lat_vecs_` in its C memory layout: 18 doubles,
row-major, row `r` occupying flat offsets `2*r` and `2*r + 1`. -/
def latVecsFlat : List ℚ :=
  [0, 0, 1, 0, 0, 1, -1, 0, 0, -1, 1, 1, -1, 1, -1, -1, 1, -1]

/-- Flat offset (in doubles from the start of `lat_vecs_`) of the address
returned by `Lattice::pc(k)` (lattice.hh:116-118): `&lat_vecs_[2 * k]`
addresses row `2*k` of the `double[9][2]` table, i.e. flat offset
`2 * (2 * k)`. -/
def pcOffset (k : Nat) : Nat := 2 * (2 * k)

/-- The value read by `Lattice::c(k, c) = *(pc(k) + c)` (lattice.hh:119-121),
as an offset into the 18-double table; `none` when the read falls outside
the table (undefined behavior in the C++). -/
def cRead (k c : Nat) : Option ℚ := latVecsFlat.get? (pcOffset k + c)

/-- Flat offset of component `c` of direction `k`'s vector inside the
9 × 2 table — the element the accessor is specified to return. -/
def directionComponentOffset (k c : Nat) : Nat := 2 * k + c

/-- A node descriptor (`AbstractNodeDesc`): a per-cell polymorphic
strategy object.  Its virtual behavior is external to the core
(spec §4.2); the embedding only tracks identity and whether its
destructor raises, which is what the claims about descriptor lifetime
need. -/
structure NodeDesc where
  /-- whether this descriptor's destructor raises an error -/
  dtorThrows : Bool
  deriving DecidableEq, Repr

/-- `Lattice` (lattice.hh:54-201): grid extents, the two distribution
buffers (`spf_` the current buffer, `spftemp_` the next buffer) and the
per-cell node-descriptor handles (`node_descs_`, `none` modelling a null
pointer). -/
structure Lattice where
  ni_ : Nat
  nj_ : Nat
  spf_ : List ℚ
  spftemp_ : List ℚ
  node_descs_ : List (Option NodeDesc)
  deriving DecidableEq, Repr

/-- Allocation size of each distribution buffer in the constructor
(lattice.hh:63-64): `ni * nj * num_k()` computed in C `unsigned`
arithmetic, hence reduced mod 2^32. -/
def allocLen (ni nj : Nat) : Nat := (ni * nj * num_k) % UINT_MOD

/-- Modelled from the spec: `Lattice::init_f_(rho)` (declared at
lattice.hh:200; the defining translation unit is not under the visible
sources) fills the current buffer with the quiescent (zero-velocity)
equilibrium `weight_k * rho` for every cell (spec §4.1 construction
contract and §8 zero-velocity reduction).  In the cell-major layout of
the private accessors (lattice.hh:187-198) flat element `idx` is
direction `idx % 9` of cell `idx / 9`. -/
def init_f (len : Nat) (rho : ℚ) : List ℚ :=
  (List.range len).map (fun idx => w_ ⟨idx % 9, Nat.mod_lt _ (by norm_num)⟩ * rho)

/-- `Lattice::Lattice(ni, nj, rho)` (lattice.hh:61-68): allocates both
distribution buffers of `ni * nj * num_k()` doubles and a descriptor
vector of `ni * nj` value-initialized (null) pointers, then calls
`init_f_(rho)`.  `new double[]` leaves `spftemp_`'s contents
indeterminate; the embedding uses zeros as placeholders and no theorem
reads them, only their number. -/
def mkLattice (ni nj : Nat) (rho : ℚ) : Lattice :=
  { ni_ := ni
    nj_ := nj
    spf_ := init_f (allocLen ni nj) rho
    spftemp_ := List.replicate (allocLen ni nj) 0
    node_descs_ := List.replicate ((ni * nj) % UINT_MOD) none }

/-- Flat index used by the public accessor `Lattice::f(i, j, k)`
(lattice.hh:92-94): `spf_[ni_ * (i * nj_ + j) + k]` — note the stride is
`ni_`, as written in the source. -/
def fIndex (lat : Lattice) (i j k : Nat) : Nat := lat.ni_ * (i * lat.nj_ + j) + k

/-- The public accessor `Lattice::f(i, j, k)`; `none` models a read
outside the allocated buffer (undefined behavior in the C++). -/
def f (lat : Lattice) (i j k : Nat) : Option ℚ := lat.spf_.get? (fIndex lat i j k)

/-- The public accessor `Lattice::ftemp(i, j, k)` (lattice.hh:96-98),
same index expression over `spftemp_`. -/
def ftemp (lat : Lattice) (i j k : Nat) : Option ℚ := lat.spftemp_.get? (fIndex lat i j k)

/-- Flat index designated by the private reference accessors
`Lattice::pf_ / f_` (lattice.hh:187-192): `spf_[(i * nj_ + j) * num_k() + k]`. -/
def fPrivIndex (lat : Lattice) (i j k : Nat) : Nat := (i * lat.nj_ + j) * num_k + k

/-- The population designated by the private reference `Lattice::f_(i, j, k)`. -/
def fPriv (lat : Lattice) (i j k : Nat) : Option ℚ := lat.spf_.get? (fPrivIndex lat i j k)

/-- The population designated by the private reference `Lattice::ft_(i, j, k)`
(lattice.hh:193-198), same index expression over `spftemp_`. -/
def ftPriv (lat : Lattice) (i j k : Nat) : Option ℚ := lat.spftemp_.get? (fPrivIndex lat i j k)

/-- `Lattice::swap_f_ptrs()` (lattice.hh:160): `spf_.swap(spftemp_)`, an
exchange of the two buffer handles; neither buffer's contents are
touched. -/
def swap_f_ptrs (lat : Lattice) : Lattice :=
  { lat with spf_ := lat.spftemp_, spftemp_ := lat.spf_ }

/-- `Lattice::set_node_desc<Node>(i, j, ...)` (lattice.hh:106-115):
records a freshly arena-constructed descriptor's handle at
`node_descs_[nj_ * i + j]`. -/
def set_node_desc (lat : Lattice) (i j : Nat) (d : NodeDesc) : Lattice :=
  { lat with node_descs_ := lat.node_descs_.set (lat.nj_ * i + j) (some d) }

/-- The descriptor handle fetched by `Lattice::node_desc(i, j)`
(lattice.hh:102-105): `node_descs_[nj_ * i + j]`.  The outer `Option` is
`none` when the vector access itself is out of range (undefined behavior
in the C++); the inner `Option` is the stored pointer, `none` for null. -/
def node_desc_handle (lat : Lattice) (i j : Nat) : Option (Option NodeDesc) :=
  lat.node_descs_.get? (lat.nj_ * i + j)

/-- The descriptor invoked by the per-cell `Lattice::stream(i, j)`
(lattice.hh:126-128), which unconditionally dereferences
`node_descs_[nj_ * i + j]` and virtual-dispatches on it.  The virtual
call itself is external (spec §4.2); the embedding records which
descriptor is reached, `none` when the handle is null or the vector
access is out of range (undefined behavior in the C++). -/
def streamCellDesc (lat : Lattice) (i j : Nat) : Option NodeDesc :=
  (node_desc_handle lat i j).join

/-- The descriptor invoked by the per-cell
`Lattice::collide_and_bound(mmap, cman, i, j)` (lattice.hh:139-143): the
same unconditional dereference of `node_descs_[nj_ * i + j]`. -/
def collideCellDesc (lat : Lattice) (i j : Nat) : Option NodeDesc :=
  (node_desc_handle lat i j).join

/-- `Lattice::in_bounds(int i, int j)` (lattice.hh:163-165):
`i < ni_ && i >= 0 && j < nj_ && j >= 0`.  In `i < ni_` the `int`
argument is converted to `unsigned` (usual arithmetic conversions);
`i >= 0` is a plain `int` comparison. -/
def in_bounds (lat : Lattice) (i j : Int) : Bool :=
  decide (toUInt32 i < lat.ni_ % UINT_MOD) && decide (0 ≤ i) &&
    decide (toUInt32 j < lat.nj_ % UINT_MOD) && decide (0 ≤ j)

/-- `Lattice::check_bounds(unsigned i, unsigned j)` (lattice.hh:166-174):
throws `std::out_of_range` with a diagnostic naming the coordinates when
`!in_bounds(i, j)` — the `unsigned` arguments are converted to `int` on
the call — and returns silently otherwise. -/
def check_bounds (lat : Lattice) (i j : Nat) : Except String Unit :=
  if in_bounds lat (toInt32 i) (toInt32 j) then Except.ok ()
  else
    Except.error ("(i, j) = (" ++ toString i ++ ", " ++ toString j ++
      ") is out of bounds. Check boundary conditions to ensure they are well-defined.")

/-- Whether a `check_bounds` call returned silently (`true`) or threw
(`false`). -/
def exceptOk : Except String Unit → Bool
  | Except.ok _ => true
  | Except.error _ => false

/-- A lattice whose extent `ni_` exceeds 2^31.  `in_bounds` and
`check_bounds` read nothing but the extents `ni_` / `nj_`, so this record
represents the bounds behavior of every lattice with these extents; the
buffers are irrelevant to them. -/
def bigLat : Lattice :=
  { ni_ := 2147483649, nj_ := 1, spf_ := [], spftemp_ := [], node_descs_ := [] }

/-- Iteration sequence of the C loop `for (unsigned x = b; x <= e; ++x)`
in the terminating case (`e < 2^32 - 1`, or `b > e` giving the empty
sequence): `b, b+1, ..., e`. -/
def uloopRange (b e : Nat) : List Nat := List.range' b (e + 1 - b)

/-- Number of body executions of `for (unsigned x = b; x <= e; ++x)`:
`none` when the loop never terminates — when `b ≤ e = 2^32 - 1` the
increment past `e` wraps the `unsigned` counter to 0 and the condition
`x <= e` holds again. -/
def uloopCount (b e : Nat) : Option Nat :=
  if b ≤ e then (if e = UINT_MOD - 1 then none else some (e + 1 - b)) else some 0

/-- The first index for which the loop body runs (`none` when the body
never runs): the condition is tested first with `x = b`. -/
def uloopFirst (b e : Nat) : Option Nat := if b ≤ e then some b else none

/-- The sequence of cells `(i, j)` handed to the per-cell operation by
the region overloads `stream(bi, ei, bj, ej)` (lattice.hh:129-134) and
`collide_and_bound(mmap, cman, bi, ei, bj, ej)` (lattice.hh:144-151):
outer loop `i` from `bi` to `ei` inclusive, inner loop `j` from `bj` to
`ej` inclusive. -/
def regionCells (bi ei bj ej : Nat) : List (Nat × Nat) :=
  (uloopRange bi ei).flatMap (fun i => (uloopRange bj ej).map (fun j => (i, j)))

/-- The cell sequence of the whole-grid overloads `stream()`
(lattice.hh:135) and `collide_and_bound(mmap, cman)` (lattice.hh:152-155),
which call the region overloads with `(0, ni_ - 1, 0, nj_ - 1)` computed
in `unsigned` arithmetic. -/
def wholeGridCells (ni nj : Nat) : List (Nat × Nat) :=
  regionCells 0 (usub1 ni) 0 (usub1 nj)

/-- Row-major precedence on cells: earlier row, or same row and earlier
column. -/
def rowMajorLt (p q : Nat × Nat) : Prop := p.1 < q.1 ∨ (p.1 = q.1 ∧ p.2 < q.2)

/-- How many times the cell `p` occurs in a cell sequence (the number of
per-cell invocations the sequence makes at `p`). -/
def cellCount (p : Nat × Nat) (l : List (Nat × Nat)) : Nat :=
  l.countP (fun q => decide (q = p))

/-- Row-loop iteration count of the whole-grid overloads: the outer loop
runs `i` from 0 to `ni_ - 1` computed in `unsigned` arithmetic. -/
def wholeGridRowLoopCount (ni : Nat) : Option Nat := uloopCount 0 (usub1 ni)

/-- The first cell on which the whole-grid overloads invoke the per-cell
operation, `none` when neither loop body is ever entered. -/
def wholeGridFirstCell (ni nj : Nat) : Option (Nat × Nat) :=
  match uloopFirst 0 (usub1 ni), uloopFirst 0 (usub1 nj) with
  | some i, some j => some (i, j)
  | _, _ => none

/-- `Lattice::~Lattice()` (lattice.hh:73-79): the single `try` block
wraps the *whole* loop over `node_descs_`, so the first descriptor
destructor that raises is caught outside the loop and the remaining
descriptors are skipped.  `dtorInvoked` counts how many descriptor
destructors are invoked (the raising one included). -/
def dtorInvoked : List NodeDesc → Nat
  | [] => 0
  | d :: ds => if d.dtorThrows then 1 else 1 + dtorInvoked ds

/-- The observable outcome of the Lattice destructor on a list of
descriptors: how many descriptor destructors ran, and whether an error
propagates out of the destructor (never, because of `catch (...) {}`). -/
def latticeDtor (ds : List NodeDesc) : Nat × Bool := (dtorInvoked ds, false)

/-- The external multiscale map at one cell (spec §6): local density and
the two components of the local velocity. -/
structure MultiscaleMap where
  rho : ℚ
  ux : ℚ
  uy : ℚ
  deriving DecidableEq, Repr

/-- Modelled from the spec: `IncompFlowEqFunct::f_` (declared in the
equilibrium header; the defining translation unit is not under the
visible sources) — the classical truncated Maxwell–Boltzmann expansion
in lattice units (spec §4.3):
`w_k * rho * (1 + (c_k·u)/cssq + (c_k·u)^2/(2 cssq^2) - (u·u)/(2 cssq))`. -/
def incompFlowEq (m : MultiscaleMap) (k : Fin 9) : ℚ :=
  w_ k * m.rho *
    (1 + ((lat_vecs k).1 * m.ux + (lat_vecs k).2 * m.uy) / cssq
       + ((lat_vecs k).1 * m.ux + (lat_vecs k).2 * m.uy) ^ 2 / (2 * cssq ^ 2)
       - (m.ux ^ 2 + m.uy ^ 2) / (2 * cssq))

/-- Modelled from the spec: `IncompFlowHLEqFunct::f_` (declared in the
equilibrium header; the defining translation unit is not under the
visible sources) — the He–Luo stabilized variant, which multiplies the
velocity-dependent part by the fixed reference density `rho_o` instead of
the local density (spec §4.3):
`w_k * (rho + rho_o * ((c_k·u)/cssq + (c_k·u)^2/(2 cssq^2) - (u·u)/(2 cssq)))`. -/
def incompFlowHLEq (rho_o : ℚ) (m : MultiscaleMap) (k : Fin 9) : ℚ :=
  w_ k *
    (m.rho + rho_o *
      (((lat_vecs k).1 * m.ux + (lat_vecs k).2 * m.uy) / cssq
        + ((lat_vecs k).1 * m.ux + (lat_vecs k).2 * m.uy) ^ 2 / (2 * cssq ^ 2)
        - (m.ux ^ 2 + m.uy ^ 2) / (2 * cssq)))

/-- The sum of a per-direction quantity over all 9 lattice directions. -/
def eqSum (g : Fin 9 → ℚ) : ℚ :=
  g 0 + g 1 + g 2 + g 3 + g 4 + g 5 + g 6 + g 7 + g 8

/-- Total mass of a lattice: the sum of all populations of the current
buffer over all cells and directions. -/
def massTotal (lat : Lattice) : ℚ := lat.spf_.sum

/-- Reading `init_f` at a flat index inside the buffer yields the
quiescent equilibrium of direction `idx % 9`. -/
theorem init_f_get (len : Nat) (rho : ℚ) (idx : Nat) (h : idx < len) :
    (init_f len rho).get? idx =
      some (w_ ⟨idx % 9, Nat.mod_lt _ (by norm_num)⟩ * rho) := by
  rw [init_f, List.get?_map, List.get?_range h, Option.map_some']

/-- C8: two consecutive `swap_f_ptrs()` calls restore the original
buffer identities (A→B→A), and a single call only exchanges the two
buffer handles: each buffer's contents — and everything else in the
lattice — are left untouched (the value-level content of "pointer
exchange only, never a copy"). -/
theorem c8_swap_f_ptrs_involutive (lat : Lattice) :
    swap_f_ptrs (swap_f_ptrs lat) = lat ∧
    (swap_f_ptrs lat).spf_ = lat.spftemp_ ∧
    (swap_f_ptrs lat).spftemp_ = lat.spf_ ∧
    (swap_f_ptrs lat).ni_ = lat.ni_ ∧
    (swap_f_ptrs lat).nj_ = lat.nj_ ∧
    (swap_f_ptrs lat).node_descs_ = lat.node_descs_ :=
  ⟨rfl, rfl, rfl, rfl, rfl, rfl⟩

/-- C5 (code evaluation at the failing input): with two descriptors of
which the first one's destructor raises, the destructor invokes only one
descriptor destructor out of two — the `try` block wraps the whole loop,
so the caught error skips the remaining descriptor — while no error
propagates out. -/
theorem c5_destructor_skips_remaining :
    latticeDtor [⟨true⟩, ⟨false⟩] = (1, false) ∧
    ([⟨true⟩, ⟨false⟩] : List NodeDesc).length = 2 := by
  constructor <;> rfl

/-- C4 (code evaluation at the failing input): on the degenerate empty
lattice `ni = nj = 0`, the whole-grid overloads `stream()` and
`collide_and_bound(mmap, cman)` compute the inclusive upper bound
`ni_ - 1` in `unsigned` arithmetic, which wraps to `2^32 - 1`; the nested
loops are therefore entered — the per-cell operation is invoked first on
cell `(0, 0)`, where the descriptor lookup falls outside the empty
descriptor vector — and the outer loop never terminates, contradicting
"terminate immediately without invoking any node descriptor". -/
theorem c4_empty_lattice_iterates :
    usub1 (mkLattice 0 0 1).ni_ = 4294967295 ∧
    wholeGridFirstCell (mkLattice 0 0 1).ni_ (mkLattice 0 0 1).nj_ = some (0, 0) ∧
    wholeGridRowLoopCount (mkLattice 0 0 1).ni_ = none ∧
    streamCellDesc (mkLattice 0 0 1) 0 0 = none ∧
    collideCellDesc (mkLattice 0 0 1) 0 0 = none := by
  refine ⟨by decide, by decide, by decide, ?_, ?_⟩ <;> decide

/-- C6 (code evaluation at the failing input): `pc(k)` returns
`&lat_vecs_[2 * k]`, the address of *row* `2*k` of the 9 × 2 table, i.e.
flat double offset `4*k`.  For `k = 5` the read of `c(5, 0)` falls at
flat offset 20, outside the 18-double table; for `k = 1` the accessor
reads flat offset 4 — component 0 of direction 2, value 0 — instead of
component 0 of direction 1, value 1.  (The `w(k)` half of the claim,
`w_[k]`, is a plain in-range read.) -/
theorem c6_pc_reads_wrong_row :
    latVecsFlat.length = 18 ∧
    pcOffset 5 + 0 = 20 ∧
    cRead 5 0 = none ∧
    pcOffset 1 + 0 = 4 ∧
    directionComponentOffset 1 0 = 2 ∧
    cRead 1 0 = some 0 ∧
    (lat_vecs 1).1 = 1 ∧
    cRead 1 0 ≠ some ((lat_vecs 1).1) := by
  refine ⟨by decide, by decide, by decide, by decide, by decide, rfl, rfl, ?_⟩
  intro h
  simp only [cRead, latVecsFlat, pcOffset] at h
  norm_num [lat_vecs, List.get?] at h

/-- C1 (code evaluation at the failing input): on a 2 × 2 lattice the
public accessor `f(0, 1, 0)` reads flat index `ni_ * (0*nj_ + 1) + 0 = 2`
— the stride written in the source is `ni_` — while the private reference
`f_(0, 1, 0)` designates flat index `9 * (0*nj_ + 1) + 0 = 9`; the two
read different populations (directions 2 and 0 of the quiescent buffer),
so the public accessor does not agree with the private layout whenever
`ni_ ≠ 9`.  `ftemp` uses the same index expression (here over the
zero-placeholder next buffer). -/
theorem c1_public_accessor_wrong_stride :
    fIndex (mkLattice 2 2 1) 0 1 0 = 2 ∧
    fPrivIndex (mkLattice 2 2 1) 0 1 0 = 9 ∧
    f (mkLattice 2 2 1) 0 1 0 = some (1 / 9) ∧
    fPriv (mkLattice 2 2 1) 0 1 0 = some (4 / 9) ∧
    f (mkLattice 2 2 1) 0 1 0 ≠ fPriv (mkLattice 2 2 1) 0 1 0 := by
  have h2 : f (mkLattice 2 2 1) 0 1 0 = some (1 / 9) := by
    show (init_f (allocLen 2 2) 1).get? (fIndex (mkLattice 2 2 1) 0 1 0) = some (1 / 9)
    rw [show fIndex (mkLattice 2 2 1) 0 1 0 = 2 from rfl,
      init_f_get (allocLen 2 2) 1 2 (by norm_num [allocLen, num_k, UINT_MOD])]
    norm_num [w_]
  have h3 : fPriv (mkLattice 2 2 1) 0 1 0 = some (4 / 9) := by
    show (init_f (allocLen 2 2) 1).get? (fPrivIndex (mkLattice 2 2 1) 0 1 0) = some (4 / 9)
    rw [show fPrivIndex (mkLattice 2 2 1) 0 1 0 = 9 from rfl,
      init_f_get (allocLen 2 2) 1 9 (by norm_num [allocLen, num_k, UINT_MOD])]
    norm_num [w_]
  refine ⟨rfl, rfl, h2, h3, ?_⟩
  rw [h2, h3]
  intro h
  rw [Option.some_inj] at h
  norm_num at h

set_option maxRecDepth 8000 in
/-- C2: constructing a lattice with `(ni, nj, rho)` allocates both
distribution buffers of exactly `ni*nj*9` doubles (the `unsigned`
product not wrapping) and stores the quiescent equilibrium
`weight_k * rho` in each cell's nine populations (at their cell-major
locations, the layout of the private accessors); in particular the 4×4
lattice at `rho = 1` has total mass 16. -/
theorem c2_quiescent_initialization (ni nj : Nat) (rho : ℚ) (i j : Nat) (k : Fin 9)
    (hi : i < ni) (hj : j < nj) (hsz : ni * nj * 9 < UINT_MOD) :
    (mkLattice ni nj rho).spf_.length = ni * nj * 9 ∧
    (mkLattice ni nj rho).spftemp_.length = ni * nj * 9 ∧
    fPriv (mkLattice ni nj rho) i j k.val = some (w_ k * rho) ∧
    massTotal (mkLattice 4 4 1) = 16 := by
  have halloc : allocLen ni nj = ni * nj * 9 := by
    simp only [allocLen, num_k]
    exact Nat.mod_eq_of_lt hsz
  have hk := k.isLt
  have hidx : (i * nj + j) * num_k + k.val < ni * nj * 9 := by
    have h1 : (i + 1) * nj ≤ ni * nj := Nat.mul_le_mul_right nj hi
    have h2 : (i + 1) * nj = i * nj + nj := by ring
    have h3 : (i * nj + j) * num_k = 9 * (i * nj) + 9 * j := by
      simp only [num_k]; ring
    omega
  refine ⟨?_, ?_, ?_, ?_⟩
  · show (init_f (allocLen ni nj) rho).length = ni * nj * 9
    simp [init_f, halloc]
  · show (List.replicate (allocLen ni nj) (0 : ℚ)).length = ni * nj * 9
    simp [halloc]
  · have hrfl : fPriv (mkLattice ni nj rho) i j k.val =
        (init_f (allocLen ni nj) rho).get? ((i * nj + j) * num_k + k.val) := rfl
    rw [hrfl, init_f_get _ _ _ (by rw [halloc]; exact hidx)]
    have hmod : ((i * nj + j) * num_k + k.val) % 9 = k.val := by
      have h3 : (i * nj + j) * num_k = 9 * (i * nj + j) := by
        simp only [num_k]; ring
      omega
    have hfin : (⟨((i * nj + j) * num_k + k.val) % 9,
        Nat.mod_lt _ (by norm_num)⟩ : Fin 9) = k := Fin.ext hmod
    rw [hfin]
  · show (init_f (allocLen 4 4) 1).sum = 16
    norm_num [init_f, allocLen, num_k, UINT_MOD, List.range_succ, w_]

/-- Witness for C2: the 1×1 lattice at `rho = 1`, cell (0, 0),
direction 0. -/
theorem c2_quiescent_initialization_witness :
    (mkLattice 1 1 1).spf_.length = 1 * 1 * 9 ∧
    (mkLattice 1 1 1).spftemp_.length = 1 * 1 * 9 ∧
    fPriv (mkLattice 1 1 1) 0 0 (0 : Fin 9).val = some (w_ 0 * 1) ∧
    massTotal (mkLattice 4 4 1) = 16 :=
  c2_quiescent_initialization 1 1 1 0 0 0 (by norm_num) (by norm_num)
    (by norm_num [UINT_MOD])

/-- Round trip of the index conversions: converting an `unsigned` to
`int` and back is the identity. -/
theorem toUInt32_toInt32 (n : Nat) (h : n < UINT_MOD) : toUInt32 (toInt32 n) = n := by
  unfold toUInt32 toInt32 UINT_MOD INT_HALF at *
  split <;> omega

/-- The `int` view of an `unsigned` is nonnegative exactly when the
value is below 2^31. -/
theorem toInt32_nonneg_iff (n : Nat) : 0 ≤ toInt32 n ↔ n % UINT_MOD < INT_HALF := by
  unfold toInt32 UINT_MOD INT_HALF
  split <;> omega

/-- Round trip of the index conversions: converting an in-range `int` to
`unsigned` and back is the identity. -/
theorem toInt32_toUInt32 (x : Int) (h1 : -(INT_HALF : Int) ≤ x)
    (h2 : x < (INT_HALF : Int)) : toInt32 (toUInt32 x) = x := by
  unfold toUInt32 toInt32 UINT_MOD INT_HALF at *
  split <;> omega

/-- `in_bounds` in arithmetic form. -/
theorem in_bounds_iff (lat : Lattice) (x y : Int)
    (hni : lat.ni_ < UINT_MOD) (hnj : lat.nj_ < UINT_MOD) :
    in_bounds lat x y = true ↔
      (toUInt32 x < lat.ni_ ∧ 0 ≤ x ∧ toUInt32 y < lat.nj_ ∧ 0 ≤ y) := by
  simp [in_bounds, Nat.mod_eq_of_lt hni, Nat.mod_eq_of_lt hnj, and_assoc]

/-- `check_bounds` returns silently exactly when `in_bounds` accepts the
converted indices. -/
theorem check_bounds_ok_iff (lat : Lattice) (i j : Nat) :
    exceptOk (check_bounds lat i j) = true ↔
      in_bounds lat (toInt32 i) (toInt32 j) = true := by
  cases hb : in_bounds lat (toInt32 i) (toInt32 j) <;>
    simp [check_bounds, hb, exceptOk]

/-- C3 (amended): `check_bounds(i, j)` throws exactly when `i ≥ ni` or
`j ≥ nj` **or `i ≥ 2^31` or `j ≥ 2^31`** — the `unsigned` index is
converted to a 32-bit `int` on the call to `in_bounds`, so an index of
2^31 or more reads as negative and is always rejected, even when it is
below the extent — and returns silently otherwise; and `in_bounds(x, y)`
agrees with `check_bounds` on every int-range input under the argument
conversion.  For lattices with `ni, nj ≤ 2^31` this is exactly the
original bounds contract. -/
theorem c3_bounds_contract (lat : Lattice) (i j : Nat) (x y : Int)
    (hni : lat.ni_ < UINT_MOD) (hnj : lat.nj_ < UINT_MOD)
    (hi : i < UINT_MOD) (hj : j < UINT_MOD)
    (hx1 : -(INT_HALF : Int) ≤ x) (hx2 : x < (INT_HALF : Int))
    (hy1 : -(INT_HALF : Int) ≤ y) (hy2 : y < (INT_HALF : Int)) :
    (exceptOk (check_bounds lat i j) = false ↔
      (lat.ni_ ≤ i ∨ lat.nj_ ≤ j ∨ INT_HALF ≤ i ∨ INT_HALF ≤ j)) ∧
    in_bounds lat x y = exceptOk (check_bounds lat (toUInt32 x) (toUInt32 y)) := by
  have hok : exceptOk (check_bounds lat i j) = true ↔
      (i < lat.ni_ ∧ i < INT_HALF ∧ j < lat.nj_ ∧ j < INT_HALF) := by
    rw [check_bounds_ok_iff, in_bounds_iff lat _ _ hni hnj,
      toUInt32_toInt32 i hi, toUInt32_toInt32 j hj,
      toInt32_nonneg_iff, toInt32_nonneg_iff,
      Nat.mod_eq_of_lt hi, Nat.mod_eq_of_lt hj]
  constructor
  · rw [Bool.eq_false_iff, Ne, hok]
    omega
  · rw [Bool.eq_iff_iff, check_bounds_ok_iff,
      toInt32_toUInt32 x hx1 hx2, toInt32_toUInt32 y hy1 hy2]

/-- Counterexample to C3 as stated: on a lattice with `ni = 2^31 + 1`,
`check_bounds(2^31, 0)` throws although `2^31 < ni` and `0 < nj` and
neither index is negative — the original claim says it must return
silently. -/
theorem c3_counterexample :
    INT_HALF < bigLat.ni_ ∧ 0 < bigLat.nj_ ∧
    exceptOk (check_bounds bigLat 2147483648 0) = false := by
  refine ⟨by decide, by decide, ?_⟩
  decide

/-- Witness for C3 (amended) on the 2×3 lattice with indices
`(i, j) = (5, 0)` and int pair `(x, y) = (-1, 0)`. -/
theorem c3_bounds_contract_witness :
    (exceptOk (check_bounds (mkLattice 2 3 1) 5 0) = false ↔
      ((mkLattice 2 3 1).ni_ ≤ 5 ∨ (mkLattice 2 3 1).nj_ ≤ 0 ∨
        INT_HALF ≤ 5 ∨ INT_HALF ≤ 0)) ∧
    in_bounds (mkLattice 2 3 1) (-1) 0 =
      exceptOk (check_bounds (mkLattice 2 3 1) (toUInt32 (-1)) (toUInt32 0)) :=
  c3_bounds_contract (mkLattice 2 3 1) 5 0 (-1) 0 (by decide) (by decide)
    (by decide) (by decide) (by decide) (by decide) (by decide) (by decide)

/-- C7: for every multiscale-map state (density and velocity) the nine
equilibrium populations sum to the local density, for both the standard
incompressible-flow functor and the He–Luo functor with any reference
density `rho_o` (mass conservation of the discretized Maxwellian, exact
over the idealized reals). -/
theorem c7_equilibrium_mass_conservation (m : MultiscaleMap) (rho_o : ℚ) :
    eqSum (incompFlowEq m) = m.rho ∧
    eqSum (incompFlowHLEq rho_o m) = m.rho := by
  constructor <;>
  · simp only [eqSum, incompFlowEq, incompFlowHLEq, w_, lat_vecs, cssq]
    ring

/-- C9: after construction every cell's descriptor handle is the null
pointer until `set_node_desc` stores one there, and the per-cell
`stream(i, j)` / `collide_and_bound(mmap, cman, i, j)` unconditionally
dereference that handle: on a freshly constructed lattice they reach a
null handle (no descriptor to invoke), while after `set_node_desc` they
reach the stored descriptor. -/
theorem c9_descriptor_null_until_set (ni nj : Nat) (rho : ℚ) (i j : Nat)
    (d : NodeDesc) (hi : i < ni) (hj : j < nj) (hsz : ni * nj < UINT_MOD) :
    node_desc_handle (mkLattice ni nj rho) i j = some none ∧
    streamCellDesc (mkLattice ni nj rho) i j = none ∧
    collideCellDesc (mkLattice ni nj rho) i j = none ∧
    node_desc_handle (set_node_desc (mkLattice ni nj rho) i j d) i j =
      some (some d) ∧
    streamCellDesc (set_node_desc (mkLattice ni nj rho) i j d) i j = some d ∧
    collideCellDesc (set_node_desc (mkLattice ni nj rho) i j d) i j = some d := by
  have hidx : nj * i + j < ni * nj := by
    have h1 : nj * (i + 1) ≤ nj * ni := Nat.mul_le_mul_left nj hi
    have h2 : nj * (i + 1) = nj * i + nj := by ring
    have h3 : nj * ni = ni * nj := by ring
    omega
  have hlen : ((ni * nj) % UINT_MOD) = ni * nj := Nat.mod_eq_of_lt hsz
  have hfresh : node_desc_handle (mkLattice ni nj rho) i j = some none := by
    show (List.replicate ((ni * nj) % UINT_MOD) (none : Option NodeDesc)).get?
        (nj * i + j) = some none
    rw [List.get?_eq_getElem?, List.getElem?_replicate, hlen, if_pos hidx]
  have hset : node_desc_handle (set_node_desc (mkLattice ni nj rho) i j d) i j =
      some (some d) := by
    show ((List.replicate ((ni * nj) % UINT_MOD) (none : Option NodeDesc)).set
        (nj * i + j) (some d)).get? (nj * i + j) = some (some d)
    rw [List.get?_set]
    simp only [if_pos rfl]
    rw [List.get?_eq_getElem?, List.getElem?_replicate, hlen, if_pos hidx]
    rfl
  refine ⟨hfresh, ?_, ?_, hset, ?_, ?_⟩
  · show (node_desc_handle (mkLattice ni nj rho) i j).join = none
    rw [hfresh]; rfl
  · show (node_desc_handle (mkLattice ni nj rho) i j).join = none
    rw [hfresh]; rfl
  · show (node_desc_handle (set_node_desc (mkLattice ni nj rho) i j d) i j).join =
      some d
    rw [hset]; rfl
  · show (node_desc_handle (set_node_desc (mkLattice ni nj rho) i j d) i j).join =
      some d
    rw [hset]; rfl

/-- Witness for C9: the 1×1 lattice, cell (0, 0), a non-throwing
descriptor. -/
theorem c9_descriptor_null_until_set_witness :
    node_desc_handle (mkLattice 1 1 1) 0 0 = some none ∧
    streamCellDesc (mkLattice 1 1 1) 0 0 = none ∧
    collideCellDesc (mkLattice 1 1 1) 0 0 = none ∧
    node_desc_handle (set_node_desc (mkLattice 1 1 1) 0 0 ⟨false⟩) 0 0 =
      some (some ⟨false⟩) ∧
    streamCellDesc (set_node_desc (mkLattice 1 1 1) 0 0 ⟨false⟩) 0 0 =
      some ⟨false⟩ ∧
    collideCellDesc (set_node_desc (mkLattice 1 1 1) 0 0 ⟨false⟩) 0 0 =
      some ⟨false⟩ :=
  c9_descriptor_null_until_set 1 1 1 0 0 ⟨false⟩ (by decide) (by decide)
    (by decide)

/-- Membership in a terminating unsigned loop's iteration sequence. -/
theorem mem_uloopRange (b e x : Nat) : x ∈ uloopRange b e ↔ b ≤ x ∧ x ≤ e := by
  simp only [uloopRange, List.mem_range'_1]
  omega

/-- Membership in the region cell sequence is exactly inclusion in the
inclusive rectangle. -/
theorem mem_regionCells (bi ei bj ej : Nat) (p : Nat × Nat) :
    p ∈ regionCells bi ei bj ej ↔
      (bi ≤ p.1 ∧ p.1 ≤ ei ∧ bj ≤ p.2 ∧ p.2 ≤ ej) := by
  simp only [regionCells, List.mem_flatMap, List.mem_map, mem_uloopRange]
  constructor
  · rintro ⟨i, hi, j, hj, rfl⟩
    exact ⟨hi.1, hi.2, hj.1, hj.2⟩
  · rintro ⟨ha, hb, hc, hd⟩
    exact ⟨p.1, ⟨ha, hb⟩, p.2, ⟨hc, hd⟩, rfl⟩

/-- The region cell sequence visits no cell twice. -/
theorem nodup_regionCells (bi ei bj ej : Nat) :
    (regionCells bi ei bj ej).Nodup := by
  rw [regionCells, List.nodup_flatMap]
  constructor
  · intro i _
    exact (List.nodup_range' _ _).map (fun a b hab => congrArg Prod.snd hab)
  · apply List.Pairwise.imp ?_ (List.pairwise_lt_range' _ _)
    intro a b hab p hp hq
    obtain ⟨j1, _, rfl⟩ := List.mem_map.mp hp
    obtain ⟨j2, _, heq⟩ := List.mem_map.mp hq
    have : b = a := congrArg Prod.fst heq
    omega

/-- Each cell of the inclusive rectangle is visited exactly once, cells
outside it never. -/
theorem count_regionCells (bi ei bj ej : Nat) (p : Nat × Nat) :
    cellCount p (regionCells bi ei bj ej) =
      if bi ≤ p.1 ∧ p.1 ≤ ei ∧ bj ≤ p.2 ∧ p.2 ≤ ej then 1 else 0 := by
  show @List.count _ instBEqOfDecidableEq p (regionCells bi ei bj ej) = _
  by_cases h : bi ≤ p.1 ∧ p.1 ≤ ei ∧ bj ≤ p.2 ∧ p.2 ≤ ej
  · rw [if_pos h]
    exact List.count_eq_one_of_mem (nodup_regionCells bi ei bj ej)
      ((mem_regionCells bi ei bj ej p).mpr h)
  · rw [if_neg h]
    exact @List.count_eq_zero_of_not_mem _ instBEqOfDecidableEq instLawfulBEq p _
      (fun hm => h ((mem_regionCells bi ei bj ej p).mp hm))

/-- The nested loops emit cells in strictly increasing row-major
order. -/
theorem pairwise_rowMajor_flatMap (s n bj ej : Nat) :
    List.Pairwise rowMajorLt
      ((List.range' s n).flatMap
        (fun i => (uloopRange bj ej).map (fun j => (i, j)))) := by
  induction n generalizing s with
  | zero => simp
  | succ n ih =>
    rw [List.range'_succ, List.flatMap_cons, List.pairwise_append]
    refine ⟨?_, ih (s + 1), ?_⟩
    · rw [List.pairwise_map]
      exact List.Pairwise.imp (fun hab => Or.inr ⟨rfl, hab⟩)
        (List.pairwise_lt_range' _ _)
    · intro p hp q hq
      obtain ⟨j1, _, rfl⟩ := List.mem_map.mp hp
      rw [List.mem_flatMap] at hq
      obtain ⟨i2, hi2, hq2⟩ := hq
      obtain ⟨j2, _, rfl⟩ := List.mem_map.mp hq2
      have hs : s + 1 ≤ i2 := (List.mem_range'_1.mp hi2).1
      exact Or.inl (by omega)

/-- The region cell sequence is strictly row-major ordered. -/
theorem chain_rowMajor_regionCells (bi ei bj ej : Nat) :
    List.Chain' rowMajorLt (regionCells bi ei bj ej) :=
  (pairwise_rowMajor_flatMap bi (ei + 1 - bi) bj ej).chain'

/-- For a nonzero in-range extent, the unsigned `n - 1` is the plain
`n - 1`. -/
theorem usub1_eq (n : Nat) (h1 : 1 ≤ n) (h2 : n < UINT_MOD) : usub1 n = n - 1 := by
  unfold usub1 UINT_MOD at *
  omega

/-- C10: for every region `(bi, ei, bj, ej)` with `bi ≤ ei < ni` and
`bj ≤ ej < nj`, the region overloads of `stream` and `collide_and_bound`
invoke the per-cell operation exactly once per cell of the inclusive
rectangle, in strictly increasing row-major order (`i` outer, `j`
inner), and the whole-grid overloads delegate to the region
`(0, ni-1, 0, nj-1)`. -/
theorem c10_region_iteration (bi ei bj ej ni nj : Nat)
    (h1 : bi ≤ ei) (h2 : ei < ni) (h3 : bj ≤ ej) (h4 : ej < nj)
    (hni : ni < UINT_MOD) (hnj : nj < UINT_MOD) :
    (∀ p : Nat × Nat, cellCount p (regionCells bi ei bj ej) =
      if bi ≤ p.1 ∧ p.1 ≤ ei ∧ bj ≤ p.2 ∧ p.2 ≤ ej then 1 else 0) ∧
    List.Chain' rowMajorLt (regionCells bi ei bj ej) ∧
    wholeGridCells ni nj = regionCells 0 (ni - 1) 0 (nj - 1) := by
  refine ⟨fun p => count_regionCells bi ei bj ej p,
    chain_rowMajor_regionCells bi ei bj ej, ?_⟩
  rw [wholeGridCells, usub1_eq ni (by omega) hni, usub1_eq nj (by omega) hnj]

/-- Witness for C10: the region `(0, 1, 0, 0)` of a 2×1 lattice,
evaluated at the cell `(1, 0)`. -/
theorem c10_region_iteration_witness :
    cellCount ((1, 0) : Nat × Nat) (regionCells 0 1 0 0) =
      (if 0 ≤ ((1, 0) : Nat × Nat).1 ∧ ((1, 0) : Nat × Nat).1 ≤ 1 ∧
          0 ≤ ((1, 0) : Nat × Nat).2 ∧ ((1, 0) : Nat × Nat).2 ≤ 0
        then 1 else 0) ∧
    List.Chain' rowMajorLt (regionCells 0 1 0 0) ∧
    wholeGridCells 2 1 = regionCells 0 (2 - 1) 0 (1 - 1) := by
  obtain ⟨hc, hchain, hgrid⟩ :=
    c10_region_iteration 0 1 0 0 2 1 (by decide) (by decide) (by decide)
      (by decide) (by decide) (by decide)
  exact ⟨hc (1, 0), hchain, hgrid⟩

end balbm.d2q9
